import Mathlib

/-!
# Dynamic database configuration: the connector-factory driver and its rotation tests

Shallow embedding of `driver.go` (the `Driver` type with `Connect` and `Open`) and of the
parts of `driver_test.go` that the verified properties talk about (`generatePassword`,
the rotator goroutine body, the workload loop and the draining sequence).

Modelling conventions

* A Go `error` value is a `GoError`: a message and, for errors built by `fmt.Errorf` with
  the `%w` verb, the wrapped cause.  `nil` is `none` in `Option GoError`.
* Go functions returning `(T, error)` return a pair of options; both components may be `nil`.
* Side effects of the caller-supplied factory and of connectors are explicit state passing
  over an arbitrary world type `σ`.
* Each embedded method records the calls it makes on its collaborators (`Call`) and hands
  back its receiver, so that "is not invoked" and "does not mutate" can be stated.
* Bytes are natural numbers below 256.
-/

namespace DynamicDatabaseConfig

/-! ## Go error values -/

/-- Go error value: `leaf` is what `errors.New` builds, `wrap` is what `fmt.Errorf` builds
for a format with one `%w` verb. -/
inductive GoError where
  | leaf (msg : String)
  | wrap (msg : String) (inner : GoError)
deriving DecidableEq, Repr

/-- Method `Error()` of an error value. -/
def GoError.Error : GoError → String
  | .leaf m => m
  | .wrap m _ => m

/-- Function `errors.Unwrap`: the wrapped cause, `none` when there is none. -/
def GoError.Unwrap : GoError → Option GoError
  | .leaf _ => none
  | .wrap _ e => some e

/-- Function `errors.New(text)`. -/
def errorsNew (text : String) : GoError := .leaf text

/-- Call `fmt.Errorf("error creating connector from function: %w", err)` for a non-nil
`err`: the message is the format with `err.Error()` substituted, the cause is `err`. -/
def errorfCreatingConnector (err : GoError) : GoError :=
  .wrap ("error creating connector from function: " ++ err.Error) err

/-! ## driver.go -/

section DriverModel

variable {σ Ctx Conn : Type}

/-- Interface `driver.Connector`, reduced to the method the driver calls:
`Connect(ctx) (driver.Conn, error)`, acting on the world. -/
structure Connector (σ Ctx Conn : Type) where
  Connect : Ctx → σ → (Option Conn × Option GoError) × σ

/-- Type `CreateConnectorFunc func() (driver.Connector, error)`: a zero-argument function,
reading and possibly changing the world. -/
abbrev CreateConnectorFunc (σ Ctx Conn : Type) : Type :=
  σ → (Option (Connector σ Ctx Conn) × Option GoError) × σ

/-- Type `Driver`: a struct with the single field `CreateConnectorFunc`.  A Go func value may
be `nil`, hence the option. -/
structure Driver (σ Ctx Conn : Type) where
  CreateConnectorFunc : Option (CreateConnectorFunc σ Ctx Conn)

/-- Calls a driver method makes on its collaborators. -/
inductive Call (Ctx : Type) where
  | factory
  | connect (ctx : Ctx)
deriving DecidableEq, Repr

/-- Is the call an invocation of `CreateConnectorFunc`? -/
def Call.isFactory : Call Ctx → Bool
  | .factory => true
  | .connect _ => false

/-- Is the call an invocation of some connector's `Connect`? -/
def Call.isConnect : Call Ctx → Bool
  | .factory => false
  | .connect _ => true

/-- What a method call hands to its caller: the returned pair `(driver.Conn, error)`, or a
runtime panic from calling through a nil func or nil interface value. -/
inductive Returned (Conn : Type) where
  | values (conn : Option Conn) (err : Option GoError)
  | nilDeref
deriving DecidableEq, Repr

/-- The returned connection (`nil` is `none`). -/
def Returned.conn : Returned Conn → Option Conn
  | .values c _ => c
  | .nilDeref => none

/-- The returned error (`nil` is `none`). -/
def Returned.err : Returned Conn → Option GoError
  | .values _ e => e
  | .nilDeref => none

/-- The call returned normally with a nil error. -/
def Returned.succeeded : Returned Conn → Bool
  | .values _ none => true
  | _ => false

/-- Everything observable about one method call: what it returned, the calls it made in
order, the world afterwards and the receiver afterwards. -/
structure Outcome (σ Ctx Conn : Type) where
  ret : Returned Conn
  calls : List (Call Ctx)
  world : σ
  receiver : Driver σ Ctx Conn

/-- Method `func (d Driver) Driver() driver.Driver`: returns the receiver.  (Named
`driverMethod` because `Driver.Driver` would shadow the type inside its own namespace.) -/
def Driver.driverMethod (d : Driver σ Ctx Conn) : Driver σ Ctx Conn := d

/-- Method `func (d Driver) Connect(ctx context.Context) (driver.Conn, error)`. -/
def Driver.Connect (d : Driver σ Ctx Conn) (ctx : Ctx) (w : σ) : Outcome σ Ctx Conn :=
  match d.CreateConnectorFunc with
  | none => ⟨.nilDeref, [], w, d⟩
  | some f =>
    -- connector, err := d.CreateConnectorFunc()
    match f w with
    | ((connector, err), w1) =>
      match err with
      | some e =>
        -- return nil, fmt.Errorf("error creating connector from function: %w", err)
        ⟨.values none (some (errorfCreatingConnector e)), [.factory], w1, d⟩
      | none =>
        -- return connector.Connect(ctx)
        match connector with
        | none => ⟨.nilDeref, [.factory], w1, d⟩
        | some c =>
          match c.Connect ctx w1 with
          | ((conn, cerr), w2) => ⟨.values conn cerr, [.factory, .connect ctx], w2, d⟩

/-- Method `func (d Driver) Open(name string) (driver.Conn, error)`. -/
def Driver.Open (d : Driver σ Ctx Conn) (_name : String) (w : σ) : Outcome σ Ctx Conn :=
  ⟨.values none (some (errorsNew "open is not supported")), [], w, d⟩

/-- Result of a sequence of `Connect` calls issued one after the other by a caller. -/
structure Run (σ Ctx Conn : Type) where
  results : List (Returned Conn)
  calls : List (Call Ctx)
  world : σ

/-- A caller issuing `Connect` once per context in the list, each call on the receiver and
world left by the previous one.  A panic ends the sequence. -/
def connectSeq (d : Driver σ Ctx Conn) : List Ctx → σ → Run σ Ctx Conn
  | [], w => ⟨[], [], w⟩
  | ctx :: rest, w =>
    let o := d.Connect ctx w
    match o.ret with
    | .nilDeref => ⟨[.nilDeref], o.calls, o.world⟩
    | .values conn err =>
      let t := connectSeq o.receiver rest o.world
      ⟨.values conn err :: t.results, o.calls ++ t.calls, t.world⟩

/-- A connector written against world `σ`, run in a world that also carries a counter it
does not touch. -/
def Connector.lift (c : Connector σ Ctx Conn) : Connector (Nat × σ) Ctx Conn :=
  ⟨fun ctx s => ((c.Connect ctx s.2).1, (s.1, (c.Connect ctx s.2).2))⟩

/-- A factory with an invocation counter.  The world is a counter and an environment; the
invocation made when the counter is `k` behaves as `script k` on the environment and
increments the counter. -/
def countingFactory (script : Nat → CreateConnectorFunc σ Ctx Conn) :
    CreateConnectorFunc (Nat × σ) Ctx Conn :=
  fun s => (((script s.1 s.2).1.1.map Connector.lift, (script s.1 s.2).1.2),
            (s.1 + 1, (script s.1 s.2).2))

/-- The driver built around a counting factory. -/
def countingDriver (script : Nat → CreateConnectorFunc σ Ctx Conn) :
    Driver (Nat × σ) Ctx Conn :=
  ⟨some (countingFactory script)⟩

end DriverModel

/-! ### Concrete collaborators used to exercise the driver

The world is the number of network connections opened so far; contexts and connections are
numbers. -/

/-- A connector that opens connection number `tag + ctx`. -/
def sampleConnector (tag : Nat) : Connector Nat Nat Nat :=
  ⟨fun ctx w => ((some (tag + ctx), none), w + 1)⟩

/-- A factory that succeeds with `sampleConnector 100`. -/
def sampleFactory : CreateConnectorFunc Nat Nat Nat :=
  fun w => ((some (sampleConnector 100), none), w)

/-- A factory that fails. -/
def failingFactory : CreateConnectorFunc Nat Nat Nat :=
  fun w => ((none, some (errorsNew "secret store unreachable")), w)

/-- A script for a counting factory: invocation `k` yields `sampleConnector (10 * k)`, except
invocation 2, which fails. -/
def sampleScript : Nat → CreateConnectorFunc Nat Nat Nat :=
  fun k w => if k = 2 then ((none, some (errorsNew "secret store unreachable")), w)
             else ((some (sampleConnector (10 * k)), none), w)

/-! ## driver_test.go: generatePassword -/

/-- How a test goroutine stops early: `t.Fatalf` (the goroutine exits, the test is marked
failed) or a runtime panic. -/
inductive Abort where
  | fatalf (msg : String)
  | panic (msg : String)
deriving DecidableEq, Repr

deriving instance DecidableEq for Except

/-- The string constant `dictionary` of `generatePassword`.  It is ASCII, so its bytes are
its characters and `len(dictionary)` is its number of characters. -/
def dictionary : String := "0123456789ABCDEFGHIJKLMNOPQRSTUVWXYZabcdefghijklmnopqrstuvwxyz"

/-- Go expression `len(dictionary)`. -/
def dictionaryLen : Nat := dictionary.toList.length

/-- Go expression `dictionary[i]`: the byte at index `i`, `none` when the index is out of
range (a runtime panic in Go). -/
def dictionaryAt (i : Nat) : Option Char := dictionary.toList[i]?

/-- Go expression `dictionary[v%byte(len(dictionary))]` for a byte `v`; the conversion
`byte(...)` and the byte operands are reduced modulo 256. -/
def passwordChar (v : Nat) : Option Char :=
  dictionaryAt ((v % 256) % (dictionaryLen % 256))

/-- One outcome of the random source `crypto/rand`: the value it delivers for each slot of
the slice it is asked to fill, and the error `rand.Read` returns. -/
structure RandSource where
  byteAt : Nat → Nat
  err : Option GoError

/-- Statements `var bytes = make([]byte, n)` and `_, err := rand.Read(bytes)`: the slice
after the call (each element a byte) and the error. -/
def randRead (src : RandSource) (n : Nat) : List Nat × Option GoError :=
  ((List.range n).map (fun k => src.byteAt k % 256), src.err)

/-- The loop `for k, v := range bytes { bytes[k] = dictionary[v%byte(len(dictionary))] }`,
`none` when an index is out of range. -/
def translateBytes : List Nat → Option (List Char)
  | [] => some []
  | v :: rest =>
    match passwordChar v with
    | none => none
    | some c =>
      match translateBytes rest with
      | none => none
      | some cs => some (c :: cs)

/-- Function `generatePassword(t *testing.T) string`. -/
def generatePassword (src : RandSource) : Except Abort String :=
  match randRead src 30 with
  | (bytes, err) =>
    match err with
    | some e => .error (.fatalf ("Error generating password: " ++ e.Error))
    | none =>
      match translateBytes bytes with
      | none => .error (.panic "index out of range")
      | some cs => .ok (String.mk cs)

/-- Number of byte values `v` in `0..255` that `passwordChar` sends to the character `c`. -/
def preimageCount (c : Char) : Nat :=
  ((List.range 256).filter (fun v => decide (passwordChar v = some c))).length

/-! ## driver_test.go: the rotator goroutine

The goroutine started by `go func() { for range changePasswordTicker.C { ... };
close(changePasswordCh) }()` in `TestMySQLDriver` and `TestPostgresDriver`.  The results of
the administrative statements are inputs; the goroutine is the only writer of
`creds.password`. -/

/-- Actions of the rotator goroutine, in the order it issues them. -/
inductive RotEvent where
  /-- Returned value of `newPassword := generatePassword(t)`. -/
  | generated (newPassword : String)
  /-- MySQL `SET PASSWORD FOR user = 'pw'`, Postgres `ALTER USER user WITH PASSWORD 'pw'`. -/
  | setPassword (user newPassword : String)
  /-- MySQL `SELECT id FROM information_schema.processlist WHERE user = ?`. -/
  | queryProcesses (user : String)
  /-- Call `processes.Scan(&id)`. -/
  | scan
  /-- MySQL `KILL id`. -/
  | kill (id : String)
  /-- Call `processes.Close()`. -/
  | closeRows
  /-- Postgres `SELECT pg_terminate_backend(pid) FROM pg_stat_activity WHERE usename = $1`. -/
  | terminateBackends (user : String)
  /-- Assignment `creds.password = newPassword`. -/
  | credsWrite (newPassword : String)
  /-- Call `t.Fatalf` with the formatted message. -/
  | fatalf (msg : String)
  /-- Call `close(changePasswordCh)`. -/
  | closeDone
deriving DecidableEq, Repr

/-- The action terminates server-side sessions of the principal. -/
def RotEvent.isTermination : RotEvent → Bool
  | .kill _ => true
  | .terminateBackends _ => true
  | _ => false

/-- The action changes the principal's password at the database. -/
def RotEvent.isSetPassword : RotEvent → Bool
  | .setPassword _ _ => true
  | _ => false

/-- The action updates the Credential Record. -/
def RotEvent.isCredsWrite : RotEvent → Bool
  | .credsWrite _ => true
  | _ => false

/-- The action is the generation of a new secret. -/
def RotEvent.isGenerated : RotEvent → Bool
  | .generated _ => true
  | _ => false

/-- An action together with the value `creds.password` holds at the moment it is issued. -/
structure Stamped where
  ev : RotEvent
  credsPassword : String
deriving DecidableEq, Repr

/-- State of the rotator goroutine: the shared field `creds.password` and the actions
issued so far. -/
structure RotState where
  credsPassword : String
  trace : List Stamped
deriving DecidableEq, Repr

/-- Record an action, stamped with the current `creds.password`. -/
def RotState.emit (s : RotState) (e : RotEvent) : RotState :=
  { s with trace := s.trace ++ [⟨e, s.credsPassword⟩] }

/-- Call `t.Fatalf(msg)`: record it and stop the goroutine. -/
def RotState.fatal (s : RotState) (msg : String) : Option Abort × RotState :=
  (some (.fatalf msg), s.emit (.fatalf msg))

/-- One row of the MySQL process list as the loop sees it: what `Scan` yields and the
error of the `KILL` statement issued for it. -/
structure ProcessRow where
  scan : Except GoError String
  killErr : Option GoError

/-- Inputs of one MySQL rotator tick. -/
structure MySQLTick where
  rand : RandSource
  setPasswordErr : Option GoError
  queryErr : Option GoError
  rows : List ProcessRow
  closeErr : Option GoError

/-- The loop `for processes.Next() { Scan; KILL }` of the MySQL rotator. -/
def killLoop : List ProcessRow → RotState → Option Abort × RotState
  | [], s => (none, s)
  | r :: rest, s =>
    match r.scan with
    | .error e => (s.emit .scan).fatal ("Error scanning id: " ++ e.Error)
    | .ok id =>
      match r.killErr with
      | some e => ((s.emit .scan).emit (.kill id)).fatal ("Error killing process: " ++ e.Error)
      | none => killLoop rest ((s.emit .scan).emit (.kill id))

/-- Body of `for range changePasswordTicker.C` in `TestMySQLDriver`. -/
def mysqlTick (username : String) (env : MySQLTick) (s : RotState) : Option Abort × RotState :=
  match generatePassword env.rand with
  | .error (.fatalf msg) => s.fatal msg
  | .error (.panic msg) => (some (.panic msg), s)
  | .ok newPassword =>
    let s1 := (s.emit (.generated newPassword)).emit (.setPassword username newPassword)
    match env.setPasswordErr with
    | some e => s1.fatal ("Error updating user password: " ++ e.Error)
    | none =>
      let s2 := s1.emit (.queryProcesses username)
      match env.queryErr with
      | some e => s2.fatal ("Error querying for processes to terminate: " ++ e.Error)
      | none =>
        match killLoop env.rows s2 with
        | (some a, s3) => (some a, s3)
        | (none, s3) =>
          let s4 := s3.emit .closeRows
          match env.closeErr with
          | some e => s4.fatal ("Error closing rows: " ++ e.Error)
          | none =>
            let s5 := s4.emit (.credsWrite newPassword)
            (none, { s5 with credsPassword := newPassword })

/-- Inputs of one Postgres rotator tick. -/
structure PostgresTick where
  rand : RandSource
  alterUserErr : Option GoError
  terminateErr : Option GoError

/-- Body of `for range changePasswordTicker.C` in `TestPostgresDriver`. -/
def postgresTick (username : String) (env : PostgresTick) (s : RotState) :
    Option Abort × RotState :=
  match generatePassword env.rand with
  | .error (.fatalf msg) => s.fatal msg
  | .error (.panic msg) => (some (.panic msg), s)
  | .ok newPassword =>
    let s1 := (s.emit (.generated newPassword)).emit (.setPassword username newPassword)
    match env.alterUserErr with
    | some e => s1.fatal ("Error updating user password: " ++ e.Error)
    | none =>
      let s2 := s1.emit (.terminateBackends username)
      match env.terminateErr with
      | some e => s2.fatal ("Error terminating user connection: " ++ e.Error)
      | none =>
        let s3 := s2.emit (.credsWrite newPassword)
        (none, { s3 with credsPassword := newPassword })

/-- The rotator goroutine given its tick body: one run of the body per value received from
the ticker channel, then `close(changePasswordCh)` once the channel is closed.  A tick that
aborts ends the goroutine without the close. -/
def rotator {τ : Type} (tick : τ → RotState → Option Abort × RotState) :
    List τ → RotState → Option Abort × RotState
  | [], s => (none, s.emit .closeDone)
  | env :: rest, s =>
    match tick env s with
    | (some a, s1) => (some a, s1)
    | (none, s1) => rotator tick rest s1

/-- Every action satisfying `p` comes before every action satisfying `q`. -/
def actionsBefore (p q : RotEvent → Bool) (trace : List Stamped) : Prop :=
  ∀ i j : Fin trace.length, p (trace.get i).ev = true → q (trace.get j).ev = true → i.val < j.val

instance (p q : RotEvent → Bool) (trace : List Stamped) : Decidable (actionsBefore p q trace) := by
  unfold actionsBefore; infer_instance

/-- Spec wording of the order inside a rotator tick, as a predicate on the actions of one
tick: generate the secret, change the password at the database, update the Credential
Record, terminate the sessions; and whenever a session is terminated the Credential Record
holds the secret generated in that tick. -/
def specRotatorOrder (trace : List Stamped) : Prop :=
  actionsBefore RotEvent.isGenerated RotEvent.isSetPassword trace ∧
  actionsBefore RotEvent.isSetPassword RotEvent.isCredsWrite trace ∧
  actionsBefore RotEvent.isCredsWrite RotEvent.isTermination trace ∧
  (∀ j : Fin trace.length, (trace.get j).ev.isTermination = true →
      RotEvent.generated (trace.get j).credsPassword ∈ trace.map Stamped.ev)

instance (trace : List Stamped) : Decidable (specRotatorOrder trace) := by
  unfold specRotatorOrder; infer_instance

/-! ## driver_test.go: the workload loop and the draining sequence

The main test goroutine from `queryTicker := jitterbug.New(...)` to the end of the test
function; this text is the same in `TestMySQLDriver` and `TestPostgresDriver`. -/

/-- Which case of the `select` fires, with the result of the statement run in that case. -/
inductive Select where
  /-- Case `<-testDurationTimer.C`. -/
  | timer
  /-- Case `<-queryTicker.C`, with the error of the `INSERT` it executes. -/
  | queryTick (insertErr : Option GoError)
deriving DecidableEq, Repr

/-- Actions of the main goroutine. -/
inductive MainEvent where
  /-- Statement `db.Exec("INSERT INTO test_table VALUES(1)")` and the error it returned. -/
  | insert (err : Option GoError)
  /-- Call `t.Errorf` with the formatted message: the test is marked failed and goes on. -/
  | errorf (msg : String)
  /-- Call `t.Fatalf` with the formatted message. -/
  | fatalf (msg : String)
  /-- Statement `break terminate`: the workload loop ends. -/
  | loopExit
  /-- Call `changePasswordTicker.Stop()`. -/
  | rotatorTickerStop
  /-- Completed receive `<-changePasswordCh`. -/
  | rotatorDone
  /-- Statement `db.QueryRow("SELECT COUNT(id) FROM test_table").Scan(&actualInsertedRows)`. -/
  | countRows
  /-- Deferred `testDurationTimer.Stop()`. -/
  | timerStop
  /-- Deferred `queryTicker.Stop()`. -/
  | queryTickerStop
deriving DecidableEq, Repr

/-- Local state of the main goroutine: the counter `insertedRows` and the actions so far.
The counter is a Go `int` (64 bits) that grows by one per query tick, about once a second
for three minutes, so it is modelled without wrap-around. -/
structure MainState where
  insertedRows : Nat
  trace : List MainEvent
deriving DecidableEq, Repr

/-- Record an action. -/
def MainState.emit (s : MainState) (e : MainEvent) : MainState :=
  { s with trace := s.trace ++ [e] }

/-- Body of `case <-queryTicker.C:`. -/
def queryTickBody (insertErr : Option GoError) (s : MainState) : MainState :=
  -- _, err := db.Exec("INSERT INTO test_table VALUES(1)")
  let s1 := s.emit (.insert insertErr)
  -- if err != nil { t.Errorf("Error inserting row: %s", err) }
  let s2 := match insertErr with
    | some e => s1.emit (.errorf ("Error inserting row: " ++ e.Error))
    | none => s1
  -- insertedRows++
  { s2 with insertedRows := s2.insertedRows + 1 }

/-- The loop `terminate: for { select { ... } }` run on the sequence of cases that fire.
`none` when the sequence ends before the timer case fires: the `select` is still waiting. -/
def workloadLoop : List Select → MainState → Option MainState
  | [], _ => none
  | .timer :: _, s => some (s.emit .loopExit)
  | .queryTick insertErr :: rest, s => workloadLoop rest (queryTickBody insertErr s)

/-- Inputs of the main goroutine after setup: the cases that fire in the workload loop,
whether the rotator goroutine ever closes `changePasswordCh`, and the result of the final
count query. -/
structure MainEnv where
  selects : List Select
  rotatorCloses : Bool
  count : Except GoError Int

/-- Run the deferred calls registered in the modelled part, last registered first. -/
def runDeferred (s : MainState) : MainState :=
  (s.emit .timerStop).emit .queryTickerStop

/-- The main goroutine from `insertedRows := 0` to the return of the test function.
`none` when it blocks for ever (in the `select` or in the receive). -/
def testTail (env : MainEnv) : Option MainState :=
  -- insertedRows := 0 ; the loop
  match workloadLoop env.selects ⟨0, []⟩ with
  | none => none
  | some s =>
    -- changePasswordTicker.Stop()
    let s1 := s.emit .rotatorTickerStop
    -- <-changePasswordCh
    if env.rotatorCloses then
      let s2 := (s1.emit .rotatorDone).emit .countRows
      match env.count with
      | .error e =>
        some (runDeferred (s2.emit (.fatalf ("Error counting number of inserted rows: " ++ e.Error))))
      | .ok actualInsertedRows =>
        if actualInsertedRows ≠ (s2.insertedRows : Int) then
          some (runDeferred (s2.emit (.errorf
            ("Inserted rows in database does not match number of insertions, expected " ++
              toString s2.insertedRows ++ ", got " ++ toString actualInsertedRows))))
        else some (runDeferred s2)
    else none

/-- Number of query ticks whose `INSERT` returned no error, among the cases that fire before
the timer case. -/
def successfulWrites : List Select → Nat
  | [] => 0
  | .timer :: _ => 0
  | .queryTick none :: rest => successfulWrites rest + 1
  | .queryTick (some _) :: rest => successfulWrites rest

/-- Number of query ticks whose `INSERT` returned an error, among the cases that fire before
the timer case. -/
def failedWrites : List Select → Nat
  | [] => 0
  | .timer :: _ => 0
  | .queryTick none :: rest => failedWrites rest
  | .queryTick (some _) :: rest => failedWrites rest + 1

/-- Number of query ticks among the cases that fire before the timer case. -/
def attemptedWrites : List Select → Nat
  | [] => 0
  | .timer :: _ => 0
  | .queryTick _ :: rest => attemptedWrites rest + 1

/-- Spec wording of the draining order, as a predicate on the actions of the main
goroutine: the stop of the rotator and the receipt of its completion both come before the
end of the workload loop. -/
def specDrainingOrder (trace : List MainEvent) : Prop :=
  ∀ i : Fin trace.length, trace.get i = .loopExit →
    (∃ j : Fin trace.length, trace.get j = .rotatorTickerStop ∧ j.val < i.val) ∧
    (∃ j : Fin trace.length, trace.get j = .rotatorDone ∧ j.val < i.val)

instance (trace : List MainEvent) : Decidable (specDrainingOrder trace) := by
  unfold specDrainingOrder; infer_instance

/-- The action is an insert statement. -/
def MainEvent.isInsert : MainEvent → Bool
  | .insert _ => true
  | _ => false

/-- The action belongs to a query tick: the insert or the report of its error. -/
def MainEvent.isQueryTickAction : MainEvent → Bool
  | .insert _ => true
  | .errorf _ => true
  | _ => false

/-- The action is a test report (`t.Errorf` or `t.Fatalf`). -/
def MainEvent.isReport : MainEvent → Bool
  | .errorf _ => true
  | .fatalf _ => true
  | _ => false

/-- The actions of a MySQL kill loop that runs to its end over sessions with the given ids:
for each id, in the order of the process list, the scan and then `KILL id`. -/
def killActions : List String → List RotEvent
  | [] => []
  | id :: rest => .scan :: .kill id :: killActions rest

/-- Place of an action in the text of a rotator tick body and of the goroutine around it. -/
def RotEvent.rank : RotEvent → Nat
  | .generated _ => 0
  | .setPassword _ _ => 1
  | .queryProcesses _ => 2
  | .scan => 3
  | .kill _ => 3
  | .terminateBackends _ => 3
  | .closeRows => 4
  | .credsWrite _ => 5
  | .fatalf _ => 6
  | .closeDone => 7

/-- The trace follows the text order of the tick body. -/
def inTextOrder (trace : List Stamped) : Prop :=
  trace.Pairwise (fun a b => a.ev.rank ≤ b.ev.rank)

/-- Order of one tick as the code has it, as a predicate on the result `r` of a tick body
started with `creds.password = old` and an empty trace, for the user `user` and the outcome
`gen` of `generatePassword`: every action of the tick is issued while `creds.password`
still holds `old`; the secret is generated before the password is changed at the database,
that before any session is terminated, and every termination before the Credential Record is
written; and a tick that completes starts with the generation and the password change and
ends with the write of the generated secret, which `creds.password` then holds. -/
def codeRotatorOrder (user old : String) (gen : Except Abort String)
    (r : Option Abort × RotState) : Prop :=
  (∀ x ∈ r.2.trace, x.credsPassword = old) ∧
  actionsBefore RotEvent.isGenerated RotEvent.isSetPassword r.2.trace ∧
  actionsBefore RotEvent.isSetPassword RotEvent.isTermination r.2.trace ∧
  actionsBefore RotEvent.isTermination RotEvent.isCredsWrite r.2.trace ∧
  (r.1 = none → ∃ pw, gen = .ok pw ∧ r.2.credsPassword = pw ∧
    r.2.trace.take 2 = [⟨.generated pw, old⟩, ⟨.setPassword user pw, old⟩] ∧
    r.2.trace.getLast? = some ⟨.credsWrite pw, old⟩)

/-! ### Concrete inputs used to exercise the test harness -/

/-- A MySQL tick in which every statement succeeds and the principal has one live session,
with id 42. -/
def sampleMySQLTick : MySQLTick :=
  ⟨⟨fun k => k * 37, none⟩, none, none, [⟨.ok "42", none⟩], none⟩

/-- A Postgres tick in which every statement succeeds. -/
def samplePostgresTick : PostgresTick :=
  ⟨⟨fun k => k * 37, none⟩, none, none⟩

/-- A run of the main goroutine: one insert succeeds, one fails, then the timer fires; the
rotator finishes and the table holds one row. -/
def sampleMainEnv : MainEnv :=
  ⟨[.queryTick none, .queryTick (some (errorsNew "invalid connection")), .timer], true, .ok 1⟩

/-! ## Theorems: driver.go -/

section DriverTheorems

variable {σ Ctx Conn : Type}

/-- Whatever happens, `Connect` hands back the receiver it was called on. -/
theorem Connect_receiver (d : Driver σ Ctx Conn) (ctx : Ctx) (w : σ) :
    (d.Connect ctx w).receiver = d := by
  unfold Driver.Connect
  cases hf : d.CreateConnectorFunc with
  | none => rfl
  | some f =>
    rcases hr : f w with ⟨⟨connector, err⟩, w1⟩
    cases err with
    | some e => simp [hr]
    | none =>
      cases connector with
      | none => simp [hr]
      | some c => simp [hr]

/-- C1: when the factory returns a non-nil error `e`, `Connect` returns a nil connection and
a non-nil error whose unwrapping is exactly `e`; the only call it makes is the one factory
invocation, so no connector's `Connect` is invoked, and the world is the one the factory
left. -/
theorem Connect_factory_failure (d : Driver σ Ctx Conn) (f : CreateConnectorFunc σ Ctx Conn)
    (ctx : Ctx) (w w1 : σ) (connector : Option (Connector σ Ctx Conn)) (e : GoError)
    (hf : d.CreateConnectorFunc = some f) (hr : f w = ((connector, some e), w1)) :
    (d.Connect ctx w).ret.conn = none ∧
    (∃ err, (d.Connect ctx w).ret = .values none (some err) ∧ err.Unwrap = some e ∧ err ≠ e) ∧
    (d.Connect ctx w).calls = [.factory] ∧
    (∀ c ∈ (d.Connect ctx w).calls, c.isConnect = false) ∧
    (d.Connect ctx w).world = w1 := by
  have hne : errorfCreatingConnector e ≠ e := by
    intro h
    have := congrArg sizeOf h
    simp [errorfCreatingConnector] at this
  simp [Driver.Connect, hf, hr, Returned.conn, Call.isConnect, errorfCreatingConnector,
    GoError.Unwrap] at hne ⊢
  exact hne

/-- Witness of C1 on a driver whose factory always fails. -/
theorem Connect_factory_failure_witness :
    ((⟨some failingFactory⟩ : Driver Nat Nat Nat).Connect 7 0).ret.conn = none ∧
    (∃ err, ((⟨some failingFactory⟩ : Driver Nat Nat Nat).Connect 7 0).ret
        = .values none (some err) ∧
      err.Unwrap = some (errorsNew "secret store unreachable") ∧
      err ≠ errorsNew "secret store unreachable") ∧
    ((⟨some failingFactory⟩ : Driver Nat Nat Nat).Connect 7 0).calls = [.factory] ∧
    (∀ c ∈ ((⟨some failingFactory⟩ : Driver Nat Nat Nat).Connect 7 0).calls,
      c.isConnect = false) ∧
    ((⟨some failingFactory⟩ : Driver Nat Nat Nat).Connect 7 0).world = 0 :=
  Connect_factory_failure ⟨some failingFactory⟩ failingFactory 7 0 0 none
    (errorsNew "secret store unreachable") rfl rfl

/-- C2: when the factory returns a connector `c` and a nil error, `Connect` calls
`c.Connect` once, with the same context, in the world the factory left, and returns exactly
the pair that call returns; so it succeeds iff `c.Connect` succeeds, the error is the
connector's own error, and the world afterwards is the one `c.Connect` left. -/
theorem Connect_transparent (d : Driver σ Ctx Conn) (f : CreateConnectorFunc σ Ctx Conn)
    (ctx : Ctx) (w w1 : σ) (c : Connector σ Ctx Conn)
    (hf : d.CreateConnectorFunc = some f) (hr : f w = ((some c, none), w1)) :
    (d.Connect ctx w).ret = .values (c.Connect ctx w1).1.1 (c.Connect ctx w1).1.2 ∧
    (d.Connect ctx w).calls = [.factory, .connect ctx] ∧
    (d.Connect ctx w).world = (c.Connect ctx w1).2 ∧
    ((d.Connect ctx w).ret.succeeded = true ↔ (c.Connect ctx w1).1.2 = none) ∧
    (d.Connect ctx w).ret.err = (c.Connect ctx w1).1.2 ∧
    (d.Connect ctx w).ret.conn = (c.Connect ctx w1).1.1 := by
  simp only [Driver.Connect, hf, hr]
  rcases hc : c.Connect ctx w1 with ⟨⟨conn, cerr⟩, w2⟩
  cases cerr <;> simp [hc, Returned.succeeded, Returned.err, Returned.conn]

/-- Witness of C2 on a driver whose factory yields `sampleConnector 100`. -/
theorem Connect_transparent_witness :
    ((⟨some sampleFactory⟩ : Driver Nat Nat Nat).Connect 7 0).ret
      = .values ((sampleConnector 100).Connect 7 0).1.1 ((sampleConnector 100).Connect 7 0).1.2 ∧
    ((⟨some sampleFactory⟩ : Driver Nat Nat Nat).Connect 7 0).calls = [.factory, .connect 7] ∧
    ((⟨some sampleFactory⟩ : Driver Nat Nat Nat).Connect 7 0).world
      = ((sampleConnector 100).Connect 7 0).2 ∧
    (((⟨some sampleFactory⟩ : Driver Nat Nat Nat).Connect 7 0).ret.succeeded = true ↔
      ((sampleConnector 100).Connect 7 0).1.2 = none) ∧
    ((⟨some sampleFactory⟩ : Driver Nat Nat Nat).Connect 7 0).ret.err
      = ((sampleConnector 100).Connect 7 0).1.2 ∧
    ((⟨some sampleFactory⟩ : Driver Nat Nat Nat).Connect 7 0).ret.conn
      = ((sampleConnector 100).Connect 7 0).1.1 :=
  Connect_transparent ⟨some sampleFactory⟩ sampleFactory 7 0 0 (sampleConnector 100) rfl rfl

/-- C4: for every driver (also one with a nil factory), every name and every world, `Open`
returns a nil connection and the non-nil error with message "open is not supported", makes
no call at all (neither the factory nor a connector), and leaves the world as it was. -/
theorem Open_unsupported (d : Driver σ Ctx Conn) (name : String) (w : σ) :
    (d.Open name w).ret = .values none (some (errorsNew "open is not supported")) ∧
    (d.Open name w).ret.conn = none ∧
    (∃ err, (d.Open name w).ret.err = some err ∧ err.Error = "open is not supported") ∧
    (d.Open name w).ret.succeeded = false ∧
    (d.Open name w).calls = [] ∧
    (d.Open name w).world = w := by
  simp [Driver.Open, Returned.conn, Returned.err, Returned.succeeded, errorsNew, GoError.Error]

/-- C5: `Connect` and `Open` hand back the receiver they were called on, whatever they
return (a pair or a panic), so the field `CreateConnectorFunc` is the same function value
afterwards; and a driver is nothing but that field: two drivers with the same field are
equal, so there is no room for a cached connector, credential or connection. -/
theorem Driver_stateless (d : Driver σ Ctx Conn) (ctx : Ctx) (name : String) (w : σ) :
    (d.Connect ctx w).receiver = d ∧
    (d.Open name w).receiver = d ∧
    (d.Connect ctx w).receiver.CreateConnectorFunc = d.CreateConnectorFunc ∧
    (d.Open name w).receiver.CreateConnectorFunc = d.CreateConnectorFunc ∧
    (∀ d1 d2 : Driver σ Ctx Conn, d1.CreateConnectorFunc = d2.CreateConnectorFunc ↔ d1 = d2) := by
  have h1 : (d.Connect ctx w).receiver = d := Connect_receiver d ctx w
  refine ⟨h1, rfl, by rw [h1], rfl, ?_⟩
  intro d1 d2
  constructor
  · intro h
    cases d1; cases d2; simp_all
  · intro h; rw [h]

/-- The first result of a non-empty sequence is the result of the first `Connect`. -/
theorem connectSeq_head (d : Driver σ Ctx Conn) (ctx : Ctx) (rest : List Ctx) (w : σ) :
    (connectSeq d (ctx :: rest) w).results[0]? = some (d.Connect ctx w).ret := by
  simp only [connectSeq]
  cases hret : (d.Connect ctx w).ret <;> simp

/-- A sequence of calls splits at any point its first part passes without a panic. -/
theorem connectSeq_append (d : Driver σ Ctx Conn) (xs ys : List Ctx) (w : σ)
    (h : Returned.nilDeref ∉ (connectSeq d xs w).results) :
    (connectSeq d (xs ++ ys) w).results
      = (connectSeq d xs w).results ++ (connectSeq d ys (connectSeq d xs w).world).results := by
  induction xs generalizing w with
  | nil => simp [connectSeq]
  | cons x xs ih =>
    simp only [connectSeq, List.cons_append] at h ⊢
    cases hret : (d.Connect x w).ret with
    | nilDeref => simp [hret] at h
    | values conn err =>
      simp only [hret, Connect_receiver] at h ⊢
      simp only [List.mem_cons, not_or] at h
      simp [ih _ h.2]

/-- One `Connect` on a counting driver: what it returns and the world it leaves, read off
the script entry selected by the counter. -/
theorem countingDriver_Connect (script : Nat → CreateConnectorFunc σ Ctx Conn) (ctx : Ctx)
    (k : Nat) (e : σ) :
    ((countingDriver script).Connect ctx (k, e)).calls.countP Call.isFactory = 1 ∧
    ((countingDriver script).Connect ctx (k, e)).world.1 = k + 1 ∧
    (∀ c e1, script k e = ((some c, none), e1) →
      ((countingDriver script).Connect ctx (k, e)).ret
        = .values (c.Connect ctx e1).1.1 (c.Connect ctx e1).1.2 ∧
      ((countingDriver script).Connect ctx (k, e)).world = (k + 1, (c.Connect ctx e1).2)) ∧
    (∀ c er e1, script k e = ((c, some er), e1) →
      ((countingDriver script).Connect ctx (k, e)).ret
        = .values none (some (errorfCreatingConnector er))) := by
  rcases hs : script k e with ⟨⟨connector, err⟩, e1⟩
  cases err with
  | some er =>
    simp [Driver.Connect, countingDriver, countingFactory, hs, Call.isFactory]
  | none =>
    cases connector with
    | none => simp [Driver.Connect, countingDriver, countingFactory, hs, Call.isFactory]
    | some c =>
      simp [Driver.Connect, countingDriver, countingFactory, hs, Call.isFactory,
        Connector.lift]

/-- Counting over a sequence of calls: the counter advances by, and the factory is invoked,
once per call made. -/
theorem countingDriver_connectSeq (script : Nat → CreateConnectorFunc σ Ctx Conn)
    (ctxs : List Ctx) (k : Nat) (e : σ) :
    (connectSeq (countingDriver script) ctxs (k, e)).world.1
      = k + (connectSeq (countingDriver script) ctxs (k, e)).results.length ∧
    (connectSeq (countingDriver script) ctxs (k, e)).calls.countP Call.isFactory
      = (connectSeq (countingDriver script) ctxs (k, e)).results.length ∧
    (Returned.nilDeref ∉ (connectSeq (countingDriver script) ctxs (k, e)).results →
      (connectSeq (countingDriver script) ctxs (k, e)).results.length = ctxs.length) := by
  induction ctxs generalizing k e with
  | nil => simp [connectSeq]
  | cons x xs ih =>
    have hone := countingDriver_Connect script x k e
    simp only [connectSeq]
    cases hret : ((countingDriver script).Connect x (k, e)).ret with
    | nilDeref =>
      simp [hone.1, hone.2.1]
    | values conn err =>
      simp only [Connect_receiver]
      rcases hw : ((countingDriver script).Connect x (k, e)).world with ⟨k1, e1⟩
      have hk1 : k1 = k + 1 := by
        have := hone.2.1
        rw [hw] at this
        exact this
      subst hk1
      have ih1 := ih (k + 1) e1
      refine ⟨?_, ?_, ?_⟩
      · simp only [List.length_cons]
        rw [ih1.1]
        omega
      · simp only [List.length_cons, List.countP_append]
        rw [ih1.2.1, hone.1]
        omega
      · intro hno
        simp only [List.mem_cons, not_or] at hno
        simp only [List.length_cons]
        rw [ih1.2.2 hno.2]

/-- C3: with a factory that counts its invocations, (a) every single `Connect` invokes the
factory exactly once and advances the counter by one; (b) a sequence of `Connect` calls
starting at counter 0 invokes the factory once per call made, so `n` calls that do not
panic invoke it exactly `n` times and leave the counter at `n`; (c) the call number `j`
(from 0) starts with the counter at `j`, and it returns what the connector of invocation
`j` of the factory returns, in the world that invocation left; a failure of invocation `j`
is reported wrapped. -/
theorem Connect_no_caching (script : Nat → CreateConnectorFunc σ Ctx Conn)
    (ctxs : List Ctx) (env : σ) :
    (∀ ctx k e,
      ((countingDriver script).Connect ctx (k, e)).calls.countP Call.isFactory = 1 ∧
      ((countingDriver script).Connect ctx (k, e)).world.1 = k + 1) ∧
    ((connectSeq (countingDriver script) ctxs (0, env)).calls.countP Call.isFactory
        = (connectSeq (countingDriver script) ctxs (0, env)).results.length ∧
      (connectSeq (countingDriver script) ctxs (0, env)).world.1
        = (connectSeq (countingDriver script) ctxs (0, env)).results.length ∧
      (Returned.nilDeref ∉ (connectSeq (countingDriver script) ctxs (0, env)).results →
        (connectSeq (countingDriver script) ctxs (0, env)).results.length = ctxs.length ∧
        (connectSeq (countingDriver script) ctxs (0, env)).calls.countP Call.isFactory
          = ctxs.length ∧
        (connectSeq (countingDriver script) ctxs (0, env)).world.1 = ctxs.length)) ∧
    (∀ j (hj : j < ctxs.length),
      Returned.nilDeref ∉ (connectSeq (countingDriver script) (ctxs.take j) (0, env)).results →
      ∃ e, (connectSeq (countingDriver script) (ctxs.take j) (0, env)).world = (j, e) ∧
        (connectSeq (countingDriver script) ctxs (0, env)).results[j]?
          = some ((countingDriver script).Connect (ctxs.get ⟨j, hj⟩) (j, e)).ret ∧
        (∀ c e1, script j e = ((some c, none), e1) →
          ((countingDriver script).Connect (ctxs.get ⟨j, hj⟩) (j, e)).ret
            = .values (c.Connect (ctxs.get ⟨j, hj⟩) e1).1.1
                (c.Connect (ctxs.get ⟨j, hj⟩) e1).1.2) ∧
        (∀ c er e1, script j e = ((c, some er), e1) →
          ((countingDriver script).Connect (ctxs.get ⟨j, hj⟩) (j, e)).ret
            = .values none (some (errorfCreatingConnector er)))) := by
  have hall := countingDriver_connectSeq script ctxs 0 env
  refine ⟨fun ctx k e => ⟨(countingDriver_Connect script ctx k e).1,
    (countingDriver_Connect script ctx k e).2.1⟩, ⟨hall.2.1, by simpa using hall.1, ?_⟩, ?_⟩
  · intro hno
    have hlen := hall.2.2 hno
    refine ⟨hlen, by rw [hall.2.1, hlen], ?_⟩
    have := hall.1
    rw [hlen] at this
    simpa using this
  · intro j hj hno
    have hpre := countingDriver_connectSeq script (ctxs.take j) 0 env
    have hlen : (connectSeq (countingDriver script) (ctxs.take j) (0, env)).results.length = j := by
      rw [hpre.2.2 hno, List.length_take]
      omega
    rcases hw : (connectSeq (countingDriver script) (ctxs.take j) (0, env)).world with ⟨k1, e⟩
    have hk1 : k1 = j := by
      have := hpre.1
      rw [hw, hlen] at this
      simpa using this
    subst hk1
    refine ⟨e, rfl, ?_, fun c e1 h => ((countingDriver_Connect script _ k1 e).2.2.1 c e1 h).1,
      (countingDriver_Connect script _ k1 e).2.2.2⟩
    have hsplit : ctxs = ctxs.take k1 ++ (ctxs.get ⟨k1, hj⟩ :: ctxs.drop (k1 + 1)) := by
      rw [List.get_eq_getElem, ← List.drop_eq_getElem_cons hj, List.take_append_drop]
    have happ := connectSeq_append (countingDriver script) (ctxs.take k1)
      (ctxs.get ⟨k1, hj⟩ :: ctxs.drop (k1 + 1)) (0, env) hno
    rw [← hsplit, hw] at happ
    rw [happ, List.getElem?_append_right (by omega), hlen, Nat.sub_self]
    exact connectSeq_head _ _ _ _

end DriverTheorems

/-- Witness of C3 on a counting factory whose invocation 2 fails: four calls, four factory
invocations, and call 2 reports the wrapped failure of invocation 2. -/
theorem Connect_no_caching_witness :
    Returned.nilDeref ∉ (connectSeq (countingDriver sampleScript) [1, 2, 3, 4] (0, 0)).results ∧
    ((connectSeq (countingDriver sampleScript) [1, 2, 3, 4] (0, 0)).results.length
        = [1, 2, 3, 4].length ∧
      (connectSeq (countingDriver sampleScript) [1, 2, 3, 4] (0, 0)).calls.countP Call.isFactory
        = [1, 2, 3, 4].length ∧
      (connectSeq (countingDriver sampleScript) [1, 2, 3, 4] (0, 0)).world.1
        = [1, 2, 3, 4].length) ∧
    Returned.nilDeref ∉
      (connectSeq (countingDriver sampleScript) ([1, 2, 3, 4].take 3) (0, 0)).results ∧
    (∃ e, (connectSeq (countingDriver sampleScript) ([1, 2, 3, 4].take 3) (0, 0)).world = (3, e) ∧
      (connectSeq (countingDriver sampleScript) [1, 2, 3, 4] (0, 0)).results[3]?
        = some ((countingDriver sampleScript).Connect ([1, 2, 3, 4].get ⟨3, by decide⟩) (3, e)).ret ∧
      (∀ c e1, sampleScript 3 e = ((some c, none), e1) →
        ((countingDriver sampleScript).Connect ([1, 2, 3, 4].get ⟨3, by decide⟩) (3, e)).ret
          = .values (c.Connect ([1, 2, 3, 4].get ⟨3, by decide⟩) e1).1.1
              (c.Connect ([1, 2, 3, 4].get ⟨3, by decide⟩) e1).1.2) ∧
      (∀ c er e1, sampleScript 3 e = ((c, some er), e1) →
        ((countingDriver sampleScript).Connect ([1, 2, 3, 4].get ⟨3, by decide⟩) (3, e)).ret
          = .values none (some (errorfCreatingConnector er)))) ∧
    (connectSeq (countingDriver sampleScript) [1, 2, 3, 4] (0, 0)).results
      = [.values (some 1) none, .values (some 12) none,
         .values none (some (errorfCreatingConnector (errorsNew "secret store unreachable"))),
         .values (some 34) none] :=
  ⟨by decide,
   (Connect_no_caching sampleScript [1, 2, 3, 4] 0).2.1.2.2 (by decide),
   by decide,
   (Connect_no_caching sampleScript [1, 2, 3, 4] 0).2.2 3 (by decide) (by decide),
   by decide⟩

/-! ## Theorems: generatePassword -/

/-- The dictionary has 62 characters. -/
theorem dictionaryLen_eq : dictionaryLen = 62 := by decide

/-- The dictionary index computed for a byte is in range, so the lookup yields a character
of the dictionary. -/
theorem passwordChar_some (v : Nat) :
    ∃ c, passwordChar v = some c ∧ c ∈ dictionary.toList := by
  have hlt : (v % 256) % (dictionaryLen % 256) < dictionary.toList.length := by
    have h62 : dictionary.toList.length = 62 := dictionaryLen_eq
    rw [dictionaryLen_eq, h62]
    exact Nat.mod_lt _ (by decide)
  refine ⟨dictionary.toList[(v % 256) % (dictionaryLen % 256)], ?_, List.getElem_mem _⟩
  simp only [passwordChar, dictionaryAt]
  exact List.getElem?_eq_getElem hlt

/-- The translation loop never fails and maps each byte to a dictionary character. -/
theorem translateBytes_some (bytes : List Nat) :
    ∃ cs, translateBytes bytes = some cs ∧ cs.length = bytes.length ∧
      ∀ c ∈ cs, c ∈ dictionary.toList := by
  induction bytes with
  | nil => exact ⟨[], rfl, rfl, by simp⟩
  | cons v rest ih =>
    obtain ⟨c, hc, hmem⟩ := passwordChar_some v
    obtain ⟨cs, hcs, hlen, hall⟩ := ih
    refine ⟨c :: cs, by simp [translateBytes, hc, hcs], by simp [hlen], ?_⟩
    intro x hx
    rcases List.mem_cons.mp hx with h | h
    · rw [h]; exact hmem
    · exact hall x h

/-- C8: whenever the random source delivers its 30 bytes (no read error), `generatePassword`
returns a string of exactly 30 characters, each of them in the dictionary; the dictionary is
the 10 digits, the 26 uppercase and the 26 lowercase letters, 62 distinct characters; and
for every byte the index `v mod 62` is below 62, so the lookup yields a character. -/
theorem generatePassword_shape (src : RandSource) (hread : src.err = none) :
    (∃ s, generatePassword src = .ok s ∧ s.length = 30 ∧
      ∀ c ∈ s.toList, c ∈ dictionary.toList) ∧
    dictionaryLen = 62 ∧
    dictionary.toList.Nodup ∧
    dictionary.toList
      = (List.range 10).map (fun i => Char.ofNat (48 + i)) ++
        (List.range 26).map (fun i => Char.ofNat (65 + i)) ++
        (List.range 26).map (fun i => Char.ofNat (97 + i)) ∧
    (∀ v, (v % 256) % (dictionaryLen % 256) < dictionaryLen ∧ (passwordChar v).isSome = true) := by
  refine ⟨?_, dictionaryLen_eq, by decide, by decide, ?_⟩
  · obtain ⟨cs, hcs, hlen, hall⟩ :=
      translateBytes_some ((List.range 30).map (fun k => src.byteAt k % 256))
    refine ⟨String.mk cs, ?_, ?_, ?_⟩
    · simp [generatePassword, randRead, hread, hcs]
    · simp [String.length, hlen]
    · simpa using hall
  · intro v
    obtain ⟨c, hc, _⟩ := passwordChar_some v
    refine ⟨?_, by simp [hc]⟩
    rw [dictionaryLen_eq]
    exact Nat.mod_lt _ (by decide)

/-- Witness of C8 on the source that delivers the bytes 0, 37, 74, ... -/
theorem generatePassword_shape_witness :
    (∃ s, generatePassword ⟨fun k => k * 37, none⟩ = .ok s ∧ s.length = 30 ∧
      ∀ c ∈ s.toList, c ∈ dictionary.toList) ∧
    dictionaryLen = 62 ∧
    dictionary.toList.Nodup ∧
    dictionary.toList
      = (List.range 10).map (fun i => Char.ofNat (48 + i)) ++
        (List.range 26).map (fun i => Char.ofNat (65 + i)) ++
        (List.range 26).map (fun i => Char.ofNat (97 + i)) ∧
    (∀ v, (v % 256) % (dictionaryLen % 256) < dictionaryLen ∧ (passwordChar v).isSome = true) :=
  generatePassword_shape ⟨fun k => k * 37, none⟩ rfl

/-- C7, as stated, fails: the character `0` has 5 byte preimages and the character `8` has
4, so the 62 characters do not all have the same number of preimages. -/
theorem generatePassword_uniform_counterexample :
    ¬ (∀ c1 ∈ dictionary.toList, ∀ c2 ∈ dictionary.toList,
        preimageCount c1 = preimageCount c2) := by
  intro h
  have h08 := h (Char.ofNat 48) (by decide) (Char.ofNat 56) (by decide)
  revert h08
  decide

/-- The translation loop maps the bytes one by one through `passwordChar`. -/
theorem translateBytes_map (bytes : List Nat) (cs : List Char)
    (h : translateBytes bytes = some cs) : cs.map some = bytes.map passwordChar := by
  induction bytes generalizing cs with
  | nil =>
    simp only [translateBytes, Option.some.injEq] at h
    subst h
    rfl
  | cons v rest ih =>
    simp only [translateBytes] at h
    cases hv : passwordChar v with
    | none => simp [hv] at h
    | some c =>
      cases hr : translateBytes rest with
      | none => simp [hv, hr] at h
      | some cs1 =>
        simp only [hv, hr, Option.some.injEq] at h
        subst h
        simp [ih cs1 hr, hv]

/-- Position `k` of the generated secret is the dictionary character selected by the byte
the random source delivered for slot `k`. -/
theorem generatePassword_chars (src : RandSource) (hread : src.err = none) :
    ∃ s, generatePassword src = .ok s ∧ s.toList.length = 30 ∧
      ∀ k, k < 30 → s.toList[k]? = passwordChar (src.byteAt k % 256) := by
  obtain ⟨cs, hcs, hlen, _⟩ :=
    translateBytes_some ((List.range 30).map (fun k => src.byteAt k % 256))
  have hmap := translateBytes_map _ _ hcs
  refine ⟨String.mk cs, by simp [generatePassword, randRead, hread, hcs], by simpa using hlen, ?_⟩
  intro k hk
  have hk1 := congrArg (fun l => l[k]?) hmap
  simp only [List.getElem?_map, List.getElem?_range hk, Option.map_some'] at hk1
  show cs[k]? = _
  cases hc : cs[k]? with
  | none => simp [hc] at hk1
  | some c =>
    simp only [hc, Option.map_some', Option.some.injEq] at hk1
    exact hk1

/-- C7, amended: when the random source delivers its bytes, position `k` of the secret
returned by `generatePassword` is `dictionary[v mod 62]` for the byte `v` delivered for slot
`k`, at each of the 30 positions; under that map the character at index `i` of the
dictionary has 5 byte preimages when `i < 8` (the characters `0` to `7`) and 4 otherwise,
the preimages of the 62 characters account for all 256 byte values, and every character of
the dictionary occurs at any chosen position for a suitable outcome of the source. -/
theorem generatePassword_preimages (src : RandSource) (hread : src.err = none)
    (i : Nat) (hi : i < dictionaryLen) :
    (∃ s, generatePassword src = .ok s ∧ s.toList.length = 30 ∧
      ∀ k, k < 30 → s.toList[k]? = passwordChar (src.byteAt k % 256)) ∧
    (∃ c, dictionaryAt i = some c ∧ preimageCount c = (if i < 8 then 5 else 4) ∧
      ∀ k, k < 30 → ∃ src1 s, src1.err = none ∧ generatePassword src1 = .ok s ∧
        s.toList[k]? = some c) ∧
    (dictionary.toList.map preimageCount).sum = 256 := by
  have hall : ∀ j, j < 62 →
      ∃ c, dictionaryAt j = some c ∧ preimageCount c = if j < 8 then 5 else 4 := by
    decide
  rw [dictionaryLen_eq] at hi
  refine ⟨generatePassword_chars src hread, ?_, by decide⟩
  obtain ⟨c, hc, hcount⟩ := hall i hi
  refine ⟨c, hc, hcount, ?_⟩
  intro k hk
  obtain ⟨s, hs, _, hpos⟩ := generatePassword_chars ⟨fun _ => i, none⟩ rfl
  refine ⟨⟨fun _ => i, none⟩, s, rfl, hs, ?_⟩
  rw [hpos k hk]
  have h256 : i % 256 = i := Nat.mod_eq_of_lt (by omega)
  have h1 : i % 256 % 256 % (dictionaryLen % 256) = i := by
    rw [dictionaryLen_eq, h256, h256]
    exact Nat.mod_eq_of_lt hi
  simp only [passwordChar, h1]
  exact hc

/-- Witness of amended C7 on the source that delivers the bytes 0, 37, 74, ... and at
index 0 of the dictionary. -/
theorem generatePassword_preimages_witness :
    (∃ s, generatePassword ⟨fun k => k * 37, none⟩ = .ok s ∧ s.toList.length = 30 ∧
      ∀ k, k < 30 →
        s.toList[k]? = passwordChar ((⟨fun k => k * 37, none⟩ : RandSource).byteAt k % 256)) ∧
    (∃ c, dictionaryAt 0 = some c ∧ preimageCount c = (if 0 < 8 then 5 else 4) ∧
      ∀ k, k < 30 → ∃ src1 s, src1.err = none ∧ generatePassword src1 = .ok s ∧
        s.toList[k]? = some c) ∧
    (dictionary.toList.map preimageCount).sum = 256 :=
  generatePassword_preimages ⟨fun k => k * 37, none⟩ rfl 0 (by decide)

/-! ## Theorems: the workload loop and the draining sequence -/

/-- The workload loop ends exactly when the timer case fires. -/
theorem workloadLoop_isSome (sel : List Select) (s0 : MainState) :
    (workloadLoop sel s0).isSome = true ↔ Select.timer ∈ sel := by
  induction sel generalizing s0 with
  | nil => simp [workloadLoop]
  | cons x rest ih =>
    cases x with
    | timer => simp [workloadLoop]
    | queryTick e => simp [workloadLoop, ih]

/-- What the workload loop has done when it ends: only query-tick actions, one insert and
one increment of the counter per query tick, then the loop exit. -/
theorem workloadLoop_spec (sel : List Select) (s0 s : MainState)
    (h : workloadLoop sel s0 = some s) :
    ∃ pre, s.trace = s0.trace ++ pre ++ [.loopExit] ∧
      (∀ e ∈ pre, e.isQueryTickAction = true) ∧
      pre.countP MainEvent.isInsert = attemptedWrites sel ∧
      s.insertedRows = s0.insertedRows + attemptedWrites sel := by
  induction sel generalizing s0 with
  | nil => simp [workloadLoop] at h
  | cons x rest ih =>
    cases x with
    | timer =>
      simp only [workloadLoop, Option.some.injEq] at h
      subst h
      exact ⟨[], by simp [MainState.emit], by simp, by simp [attemptedWrites],
        by simp [attemptedWrites, MainState.emit]⟩
    | queryTick e =>
      simp only [workloadLoop] at h
      obtain ⟨pre, htr, hall, hcnt, hrows⟩ := ih _ h
      cases e with
      | none =>
        refine ⟨.insert none :: pre, ?_, ?_, ?_, ?_⟩
        · simpa [queryTickBody, MainState.emit] using htr
        · intro x hx
          rcases List.mem_cons.mp hx with hx | hx
          · subst hx; rfl
          · exact hall x hx
        · simp [attemptedWrites, MainEvent.isInsert, hcnt]
        · simp [queryTickBody, MainState.emit] at hrows
          simp [attemptedWrites, hrows]; omega
      | some err =>
        refine ⟨.insert (some err) :: .errorf ("Error inserting row: " ++ err.Error) :: pre,
          ?_, ?_, ?_, ?_⟩
        · simpa [queryTickBody, MainState.emit] using htr
        · intro x hx
          rcases List.mem_cons.mp hx with hx | hx
          · subst hx; rfl
          · rcases List.mem_cons.mp hx with hx | hx
            · subst hx; rfl
            · exact hall x hx
        · simp [attemptedWrites, MainEvent.isInsert, hcnt]
        · simp [queryTickBody, MainState.emit] at hrows
          simp [attemptedWrites, hrows]; omega

/-- Every query tick is a write that either returned an error or did not. -/
theorem attemptedWrites_eq (sel : List Select) :
    attemptedWrites sel = successfulWrites sel + failedWrites sel := by
  induction sel with
  | nil => rfl
  | cons x rest ih =>
    cases x with
    | timer => rfl
    | queryTick e =>
      cases e with
      | none => simp [attemptedWrites, successfulWrites, failedWrites, ih]; omega
      | some err => simp [attemptedWrites, successfulWrites, failedWrites, ih]; omega

/-- C6, as stated, fails: a query tick whose insert returns an error still increments
`insertedRows`; with one such tick and then the timer the loop reports the error with
`t.Errorf`, goes on to `insertedRows++` and ends with `insertedRows = 1`, while no write
returned without error. -/
theorem workload_counter_counterexample :
    (queryTickBody (some (errorsNew "invalid connection")) ⟨0, []⟩).insertedRows = 0 + 1 ∧
    workloadLoop [.queryTick (some (errorsNew "invalid connection")), .timer] ⟨0, []⟩
      = some ⟨1, [.insert (some (errorsNew "invalid connection")),
                  .errorf "Error inserting row: invalid connection", .loopExit]⟩ ∧
    ¬ (∀ s, workloadLoop [.queryTick (some (errorsNew "invalid connection")), .timer] ⟨0, []⟩
          = some s →
        s.insertedRows
          = successfulWrites [.queryTick (some (errorsNew "invalid connection")), .timer]) := by
  decide

/-- C6, amended: a query tick increments `insertedRows` by one whether or not its insert
returned an error (an error is only reported with `t.Errorf`); so when the loop ends,
`insertedRows` is the number of writes issued, that is the writes that returned no error
plus the writes that failed, and it equals the number of writes that returned no error
exactly when no write failed. -/
theorem workload_counter (sel : List Select) (s : MainState)
    (h : workloadLoop sel ⟨0, []⟩ = some s) :
    (∀ insertErr s0, (queryTickBody insertErr s0).insertedRows = s0.insertedRows + 1) ∧
    s.insertedRows = attemptedWrites sel ∧
    s.trace.countP MainEvent.isInsert = attemptedWrites sel ∧
    s.insertedRows = successfulWrites sel + failedWrites sel ∧
    (s.insertedRows = successfulWrites sel ↔ failedWrites sel = 0) := by
  obtain ⟨pre, htr, _, hcnt, hrows⟩ := workloadLoop_spec sel ⟨0, []⟩ s h
  simp only [List.nil_append, Nat.zero_add] at htr hrows
  have hsum := attemptedWrites_eq sel
  refine ⟨?_, hrows, ?_, by omega, by omega⟩
  · intro insertErr s0
    cases insertErr <;> simp [queryTickBody, MainState.emit]
  · rw [htr]
    simp [List.countP_append, hcnt, MainEvent.isInsert]

/-- Witness of amended C6 on the sample run: two query ticks, one of them failing, and the
counter ends at 2. -/
theorem workload_counter_witness :
    workloadLoop sampleMainEnv.selects ⟨0, []⟩
      = some ⟨2, [.insert none, .insert (some (errorsNew "invalid connection")),
                  .errorf "Error inserting row: invalid connection", .loopExit]⟩ ∧
    ((∀ insertErr s0, (queryTickBody insertErr s0).insertedRows = s0.insertedRows + 1) ∧
      (MainState.mk 2 [.insert none, .insert (some (errorsNew "invalid connection")),
        .errorf "Error inserting row: invalid connection", .loopExit]).insertedRows
        = attemptedWrites sampleMainEnv.selects ∧
      (MainState.mk 2 [.insert none, .insert (some (errorsNew "invalid connection")),
        .errorf "Error inserting row: invalid connection", .loopExit]).trace.countP
          MainEvent.isInsert = attemptedWrites sampleMainEnv.selects ∧
      (MainState.mk 2 [.insert none, .insert (some (errorsNew "invalid connection")),
        .errorf "Error inserting row: invalid connection", .loopExit]).insertedRows
        = successfulWrites sampleMainEnv.selects + failedWrites sampleMainEnv.selects ∧
      ((MainState.mk 2 [.insert none, .insert (some (errorsNew "invalid connection")),
        .errorf "Error inserting row: invalid connection", .loopExit]).insertedRows
          = successfulWrites sampleMainEnv.selects ↔
        failedWrites sampleMainEnv.selects = 0)) :=
  ⟨by decide, workload_counter sampleMainEnv.selects _ (by decide)⟩

/-- C10, as stated, fails: in the sample run the workload loop ends before the rotator
ticker is stopped and before the rotator's completion is received, not after. -/
theorem draining_order_counterexample :
    ∃ s, testTail sampleMainEnv = some s ∧ ¬ specDrainingOrder s.trace :=
  ⟨_, rfl, by decide⟩

/-- C10, amended: the main goroutine returns exactly when the timer case fires and the
rotator goroutine closes its channel; then its actions are, in this order, the query-tick
actions (one insert per query tick), the end of the workload loop, the stop of the rotator
ticker, the receipt of the rotator's completion, the count query, at most reports, and at
last the deferred stops of the timer and of the query ticker.  So the workload loop ends
first and the rotator is stopped and awaited after it. -/
theorem draining_order (env : MainEnv) :
    ((testTail env).isSome = true ↔ (Select.timer ∈ env.selects ∧ env.rotatorCloses = true)) ∧
    (∀ s, testTail env = some s →
      ∃ pre post, s.trace = pre ++ [.loopExit, .rotatorTickerStop, .rotatorDone, .countRows]
          ++ post ++ [.timerStop, .queryTickerStop] ∧
        (∀ e ∈ pre, e.isQueryTickAction = true) ∧
        pre.countP MainEvent.isInsert = attemptedWrites env.selects ∧
        (∀ e ∈ post, e.isReport = true) ∧
        s.insertedRows = attemptedWrites env.selects) := by
  constructor
  · have hl := workloadLoop_isSome env.selects ⟨0, []⟩
    unfold testTail
    cases hw : workloadLoop env.selects ⟨0, []⟩ with
    | none =>
      rw [hw] at hl
      simp at hl
      simp [hl]
    | some s =>
      rw [hw] at hl
      simp at hl
      cases hc : env.rotatorCloses with
      | false => simp
      | true =>
        cases hcount : env.count with
        | error e => simp [hl]
        | ok n =>
          by_cases hn : n = (s.insertedRows : Int) <;>
            simp [hl, hn, runDeferred, MainState.emit]
  · intro s hs
    unfold testTail at hs
    cases hw : workloadLoop env.selects ⟨0, []⟩ with
    | none => simp [hw] at hs
    | some s0 =>
      obtain ⟨pre, htr, hall, hcnt, hrows⟩ := workloadLoop_spec _ _ _ hw
      simp only [List.nil_append, Nat.zero_add] at htr hrows
      rw [hw] at hs
      cases hc : env.rotatorCloses with
      | false => simp [hc] at hs
      | true =>
        cases hcount : env.count with
        | error e =>
          simp [hc, hcount] at hs
          subst hs
          exact ⟨pre, [.fatalf ("Error counting number of inserted rows: " ++ e.Error)],
            by simp [runDeferred, MainState.emit, htr], hall, hcnt,
            by simp [MainEvent.isReport], by simp [runDeferred, MainState.emit, hrows]⟩
        | ok n =>
          by_cases hn : n = (s0.insertedRows : Int)
          · simp [hc, hcount, hn, MainState.emit] at hs
            subst hs
            exact ⟨pre, [], by simp [runDeferred, MainState.emit, htr], hall, hcnt,
              by simp, by simp [runDeferred, MainState.emit, hrows]⟩
          · simp [hc, hcount, hn, MainState.emit] at hs
            subst hs
            exact ⟨pre, [_], by simp [runDeferred, MainState.emit, htr]; rfl, hall, hcnt,
              by simp [MainEvent.isReport], by simp [runDeferred, MainState.emit, hrows]⟩

/-- Witness of amended C10 on the sample run: it returns, and its trace has the stated
shape. -/
theorem draining_order_witness :
    testTail sampleMainEnv = some ⟨2,
      [.insert none, .insert (some (errorsNew "invalid connection")),
       .errorf "Error inserting row: invalid connection",
       .loopExit, .rotatorTickerStop, .rotatorDone, .countRows,
       .errorf "Inserted rows in database does not match number of insertions, expected 2, got 1",
       .timerStop, .queryTickerStop]⟩ ∧
    (Select.timer ∈ sampleMainEnv.selects ∧ sampleMainEnv.rotatorCloses = true) ∧
    (∃ pre post, (MainState.mk 2
      [.insert none, .insert (some (errorsNew "invalid connection")),
       .errorf "Error inserting row: invalid connection",
       .loopExit, .rotatorTickerStop, .rotatorDone, .countRows,
       .errorf "Inserted rows in database does not match number of insertions, expected 2, got 1",
       .timerStop, .queryTickerStop]).trace
        = pre ++ [.loopExit, .rotatorTickerStop, .rotatorDone, .countRows]
          ++ post ++ [.timerStop, .queryTickerStop] ∧
      (∀ e ∈ pre, e.isQueryTickAction = true) ∧
      pre.countP MainEvent.isInsert = attemptedWrites sampleMainEnv.selects ∧
      (∀ e ∈ post, e.isReport = true) ∧
      (MainState.mk 2
      [.insert none, .insert (some (errorsNew "invalid connection")),
       .errorf "Error inserting row: invalid connection",
       .loopExit, .rotatorTickerStop, .rotatorDone, .countRows,
       .errorf "Inserted rows in database does not match number of insertions, expected 2, got 1",
       .timerStop, .queryTickerStop]).insertedRows = attemptedWrites sampleMainEnv.selects) :=
  ⟨by decide, ((draining_order sampleMainEnv).1).mp (by decide),
   (draining_order sampleMainEnv).2 _ (by decide)⟩

/-! ## Theorems: the rotator tick -/

/-- In a trace that follows the text order, actions of a kind placed earlier in the text
come before actions of a kind placed later. -/
theorem actionsBefore_of_inTextOrder (p q : RotEvent → Bool) (trace : List Stamped)
    (hs : inTextOrder trace) (hpq : ∀ a b, p a = true → q b = true → a.rank < b.rank) :
    actionsBefore p q trace := by
  intro i j hp hq
  by_contra hge
  have hlt := hpq _ _ hp hq
  rcases Nat.lt_or_eq_of_le (Nat.le_of_not_lt hge) with h | h
  · have hle := List.pairwise_iff_get.mp hs j i h
    omega
  · have hji : j = i := Fin.ext h
    subst hji
    omega

/-- The kill loop appends to the trace only scans, kills and at most a final report, all
issued under the unchanged `creds.password`. -/
theorem killLoop_trace (rows : List ProcessRow) (s : RotState) :
    ∃ added : List Stamped, (killLoop rows s).2 = ⟨s.credsPassword, s.trace ++ added⟩ ∧
      inTextOrder added ∧
      (∀ x ∈ added, 3 ≤ x.ev.rank ∧ x.credsPassword = s.credsPassword) ∧
      ((killLoop rows s).1 = none → ∀ x ∈ added, x.ev.rank = 3) := by
  induction rows generalizing s with
  | nil => exact ⟨[], by simp [killLoop], by simp [inTextOrder], by simp, by simp⟩
  | cons r rest ih =>
    cases hscan : r.scan with
    | error e =>
      refine ⟨[⟨.scan, s.credsPassword⟩,
        ⟨.fatalf ("Error scanning id: " ++ e.Error), s.credsPassword⟩], ?_, ?_, ?_, ?_⟩
      · simp [killLoop, hscan, RotState.fatal, RotState.emit]
      · simp [inTextOrder, RotEvent.rank]
      · simp [RotEvent.rank]
      · simp [killLoop, hscan, RotState.fatal]
    | ok id =>
      cases hk : r.killErr with
      | some e =>
        refine ⟨[⟨.scan, s.credsPassword⟩, ⟨.kill id, s.credsPassword⟩,
          ⟨.fatalf ("Error killing process: " ++ e.Error), s.credsPassword⟩], ?_, ?_, ?_, ?_⟩
        · simp [killLoop, hscan, hk, RotState.fatal, RotState.emit]
        · simp [inTextOrder, RotEvent.rank]
        · simp [RotEvent.rank]
        · simp [killLoop, hscan, hk, RotState.fatal]
      | none =>
        obtain ⟨added, h1, h2, h3, h4⟩ := ih ((s.emit .scan).emit (.kill id))
        refine ⟨⟨.scan, s.credsPassword⟩ :: ⟨.kill id, s.credsPassword⟩ :: added, ?_, ?_, ?_, ?_⟩
        · simp only [killLoop, hscan, hk]
          rw [h1]
          simp [RotState.emit]
        · simp only [inTextOrder, List.pairwise_cons] at h2 ⊢
          refine ⟨?_, ?_, h2⟩
          · intro x hx
            rcases List.mem_cons.mp hx with hx | hx
            · subst hx; simp [RotEvent.rank]
            · have := (h3 x hx).1
              simpa [RotEvent.rank] using this
          · intro x hx
            have := (h3 x hx).1
            simpa [RotEvent.rank] using this
        · intro x hx
          rcases List.mem_cons.mp hx with hx | hx
          · subst hx; simp [RotEvent.rank]
          · rcases List.mem_cons.mp hx with hx | hx
            · subst hx; simp [RotEvent.rank]
            · simpa [RotState.emit] using h3 x hx
        · intro hnone x hx
          simp only [killLoop, hscan, hk] at hnone
          rcases List.mem_cons.mp hx with hx | hx
          · subst hx; simp [RotEvent.rank]
          · rcases List.mem_cons.mp hx with hx | hx
            · subst hx; simp [RotEvent.rank]
            · exact h4 hnone x hx

/-- The actions of a tick up to the end of the kill loop follow the text order. -/
theorem inTextOrder_prefix (g p q : Stamped) (added rest : List Stamped)
    (hg : g.ev.rank = 0) (hp : p.ev.rank = 1) (hq : q.ev.rank = 2)
    (h2 : inTextOrder added) (h3 : ∀ x ∈ added, 3 ≤ x.ev.rank)
    (hrest : inTextOrder rest) (h4 : ∀ x ∈ rest, 4 ≤ x.ev.rank)
    (h5 : rest ≠ [] → ∀ x ∈ added, x.ev.rank = 3) :
    inTextOrder (g :: p :: q :: added ++ rest) := by
  unfold inTextOrder at *
  simp only [List.cons_append, List.pairwise_cons, List.pairwise_append, List.mem_cons,
    List.mem_append]
  refine ⟨?_, ?_, ?_, h2, hrest, ?_⟩
  · rintro x (hx | hx | hx | hx) <;> first | (subst hx; omega) | omega
  · rintro x (hx | hx | hx) <;> first | (subst hx; omega) | skip
    · have := h3 x hx; omega
    · have := h4 x hx; omega
  · rintro x (hx | hx)
    · have := h3 x hx; omega
    · have := h4 x hx; omega
  · intro x hx y hy
    have hne : rest ≠ [] := List.ne_nil_of_mem hy
    have := h5 hne x hx
    have := h4 y hy
    omega

/-- Shape of one MySQL tick started with an empty trace. -/
theorem mysqlTick_shape (user : String) (env : MySQLTick) (old : String) :
    inTextOrder (mysqlTick user env ⟨old, []⟩).2.trace ∧
    (∀ x ∈ (mysqlTick user env ⟨old, []⟩).2.trace, x.credsPassword = old) ∧
    ((mysqlTick user env ⟨old, []⟩).1 = none →
      ∃ pw, generatePassword env.rand = .ok pw ∧
        (mysqlTick user env ⟨old, []⟩).2.credsPassword = pw ∧
        (mysqlTick user env ⟨old, []⟩).2.trace.take 2
          = [⟨.generated pw, old⟩, ⟨.setPassword user pw, old⟩] ∧
        (mysqlTick user env ⟨old, []⟩).2.trace.getLast? = some ⟨.credsWrite pw, old⟩) := by
  unfold mysqlTick
  cases hgen : generatePassword env.rand with
  | error a =>
    cases a with
    | fatalf msg => simp [inTextOrder, RotState.fatal, RotState.emit]
    | panic msg => simp [inTextOrder]
  | ok pw =>
    cases hset : env.setPasswordErr with
    | some e => simp [inTextOrder, RotState.fatal, RotState.emit, RotEvent.rank]
    | none =>
      cases hq : env.queryErr with
      | some e => simp [inTextOrder, RotState.fatal, RotState.emit, RotEvent.rank]
      | none =>
        obtain ⟨added, h1, h2, h3, h4⟩ := killLoop_trace env.rows
          ((((RotState.mk old []).emit (.generated pw)).emit (.setPassword user pw)).emit
            (.queryProcesses user))
        rcases hk : killLoop env.rows
          ((((RotState.mk old []).emit (.generated pw)).emit (.setPassword user pw)).emit
            (.queryProcesses user)) with ⟨ab, s3⟩
        rw [hk] at h1 h4
        simp only [hk]
        simp only [RotState.emit, List.nil_append, List.cons_append] at h1 h3
        subst h1
        have hstamp : ∀ x ∈ added, x.credsPassword = old := fun x hx => (h3 x hx).2
        have hrank : ∀ x ∈ added, 3 ≤ x.ev.rank := fun x hx => (h3 x hx).1
        cases ab with
        | some a =>
          refine ⟨?_, ?_, by simp⟩
          · have := inTextOrder_prefix ⟨.generated pw, old⟩ ⟨.setPassword user pw, old⟩
              ⟨.queryProcesses user, old⟩ added [] rfl rfl rfl h2 hrank
              (by simp [inTextOrder]) (by simp) (by simp)
            simpa using this
          · intro x hx
            simp only [List.mem_cons] at hx
            rcases hx with hx | hx | hx | hx
            · subst hx; rfl
            · subst hx; rfl
            · subst hx; rfl
            · exact hstamp x hx
        | none =>
          have h4r := h4 rfl
          cases hclose : env.closeErr with
          | some e =>
            refine ⟨?_, ?_, by simp [RotState.fatal]⟩
            · have := inTextOrder_prefix ⟨.generated pw, old⟩ ⟨.setPassword user pw, old⟩
                ⟨.queryProcesses user, old⟩ added
                [⟨.closeRows, old⟩, ⟨.fatalf ("Error closing rows: " ++ e.Error), old⟩]
                rfl rfl rfl h2 hrank
                (by simp [inTextOrder, RotEvent.rank]) (by simp [RotEvent.rank])
                (fun _ => h4r)
              simpa [RotState.fatal, RotState.emit] using this
            · intro x hx
              simp only [RotState.fatal, RotState.emit, List.cons_append, List.mem_cons,
                List.mem_append, List.not_mem_nil, or_false] at hx
              casesm* _ ∨ _ <;> first | exact hstamp x (by assumption) | (subst_vars; rfl)
          | none =>
            refine ⟨?_, ?_, fun _ => ⟨pw, rfl, rfl, ?_, ?_⟩⟩
            · have := inTextOrder_prefix ⟨.generated pw, old⟩ ⟨.setPassword user pw, old⟩
                ⟨.queryProcesses user, old⟩ added
                [⟨.closeRows, old⟩, ⟨.credsWrite pw, old⟩]
                rfl rfl rfl h2 hrank
                (by simp [inTextOrder, RotEvent.rank]) (by simp [RotEvent.rank])
                (fun _ => h4r)
              simpa [RotState.emit] using this
            · intro x hx
              simp only [RotState.emit, List.cons_append, List.mem_cons,
                List.mem_append, List.not_mem_nil, or_false] at hx
              casesm* _ ∨ _ <;> first | exact hstamp x (by assumption) | (subst_vars; rfl)
            · simp [RotState.emit]
            · simp [RotState.emit, List.getLast?_cons, List.getLast?_append]

/-- Shape of one Postgres tick started with an empty trace. -/
theorem postgresTick_shape (user : String) (env : PostgresTick) (old : String) :
    inTextOrder (postgresTick user env ⟨old, []⟩).2.trace ∧
    (∀ x ∈ (postgresTick user env ⟨old, []⟩).2.trace, x.credsPassword = old) ∧
    ((postgresTick user env ⟨old, []⟩).1 = none →
      ∃ pw, generatePassword env.rand = .ok pw ∧
        (postgresTick user env ⟨old, []⟩).2.credsPassword = pw ∧
        (postgresTick user env ⟨old, []⟩).2.trace.take 2
          = [⟨.generated pw, old⟩, ⟨.setPassword user pw, old⟩] ∧
        (postgresTick user env ⟨old, []⟩).2.trace.getLast? = some ⟨.credsWrite pw, old⟩) := by
  unfold postgresTick
  cases hgen : generatePassword env.rand with
  | error a =>
    cases a with
    | fatalf msg => simp [inTextOrder, RotState.fatal, RotState.emit]
    | panic msg => simp [inTextOrder]
  | ok pw =>
    cases hset : env.alterUserErr with
    | some e => simp [inTextOrder, RotState.fatal, RotState.emit, RotEvent.rank]
    | none =>
      cases hq : env.terminateErr with
      | some e => simp [inTextOrder, RotState.fatal, RotState.emit, RotEvent.rank]
      | none => simp [inTextOrder, RotState.emit, RotEvent.rank]

/-- A trace in text order, all of whose actions were issued under `old`, has the order of the
code. -/
theorem codeRotatorOrder_of_shape (user old : String) (gen : Except Abort String)
    (r : Option Abort × RotState) (hs : inTextOrder r.2.trace)
    (hst : ∀ x ∈ r.2.trace, x.credsPassword = old)
    (hok : r.1 = none → ∃ pw, gen = .ok pw ∧ r.2.credsPassword = pw ∧
      r.2.trace.take 2 = [⟨.generated pw, old⟩, ⟨.setPassword user pw, old⟩] ∧
      r.2.trace.getLast? = some ⟨.credsWrite pw, old⟩) :
    codeRotatorOrder user old gen r := by
  refine ⟨hst, ?_, ?_, ?_, hok⟩
  · apply actionsBefore_of_inTextOrder _ _ _ hs
    intro a b ha hb
    cases a <;> cases b <;> simp_all [RotEvent.isGenerated, RotEvent.isSetPassword, RotEvent.rank]
  · apply actionsBefore_of_inTextOrder _ _ _ hs
    intro a b ha hb
    cases a <;> cases b <;>
      simp_all [RotEvent.isTermination, RotEvent.isSetPassword, RotEvent.rank]
  · apply actionsBefore_of_inTextOrder _ _ _ hs
    intro a b ha hb
    cases a <;> cases b <;>
      simp_all [RotEvent.isTermination, RotEvent.isCredsWrite, RotEvent.rank]

/-- A kill loop that runs to its end has scanned an id from every row of the process list
and killed it, in the order of the list, and nothing else. -/
theorem killLoop_exact (rows : List ProcessRow) (s : RotState)
    (h : (killLoop rows s).1 = none) :
    ∃ ids, rows.map ProcessRow.scan = ids.map Except.ok ∧
      (∀ r ∈ rows, r.killErr = none) ∧
      (killLoop rows s).2
        = ⟨s.credsPassword, s.trace ++ (killActions ids).map (fun e => ⟨e, s.credsPassword⟩)⟩ := by
  induction rows generalizing s with
  | nil => exact ⟨[], rfl, by simp, by simp [killLoop, killActions]⟩
  | cons r rest ih =>
    cases hscan : r.scan with
    | error e => simp [killLoop, hscan, RotState.fatal] at h
    | ok id =>
      cases hk : r.killErr with
      | some e => simp [killLoop, hscan, hk, RotState.fatal] at h
      | none =>
        simp only [killLoop, hscan, hk] at h ⊢
        obtain ⟨ids, hids, hkill, htr⟩ := ih _ h
        refine ⟨id :: ids, by simp [hscan, hids], ?_, ?_⟩
        · intro x hx
          rcases List.mem_cons.mp hx with hx | hx
          · subst hx; exact hk
          · exact hkill x hx
        · rw [htr]
          simp [RotState.emit, killActions]

/-- The kill loop runs to its end exactly when every scan and every `KILL` succeeds. -/
theorem killLoop_complete (rows : List ProcessRow) (s : RotState) :
    (killLoop rows s).1 = none ↔
      ∀ r ∈ rows, (∃ id, r.scan = .ok id) ∧ r.killErr = none := by
  induction rows generalizing s with
  | nil => simp [killLoop]
  | cons r rest ih =>
    cases hscan : r.scan with
    | error e => simp [killLoop, hscan, RotState.fatal]
    | ok id =>
      cases hk : r.killErr with
      | some e => simp [killLoop, hscan, hk, RotState.fatal]
      | none => simp [killLoop, hscan, hk, ih]

/-- A MySQL tick completes exactly when every statement of it succeeds. -/
theorem mysqlTick_complete (user : String) (env : MySQLTick) (s : RotState) :
    (mysqlTick user env s).1 = none ↔
      ((∃ pw, generatePassword env.rand = .ok pw) ∧ env.setPasswordErr = none ∧
        env.queryErr = none ∧
        (∀ r ∈ env.rows, (∃ id, r.scan = .ok id) ∧ r.killErr = none) ∧
        env.closeErr = none) := by
  unfold mysqlTick
  cases hgen : generatePassword env.rand with
  | error a => cases a <;> simp [RotState.fatal]
  | ok pw =>
    cases hset : env.setPasswordErr with
    | some e => simp [RotState.fatal]
    | none =>
      cases hq : env.queryErr with
      | some e => simp [RotState.fatal]
      | none =>
        have hc := killLoop_complete env.rows
          (((s.emit (.generated pw)).emit (.setPassword user pw)).emit (.queryProcesses user))
        rcases hk : killLoop env.rows
          (((s.emit (.generated pw)).emit (.setPassword user pw)).emit
            (.queryProcesses user)) with ⟨ab, s3⟩
        rw [hk] at hc
        simp only [hk]
        cases ab with
        | some a =>
          simp only [reduceCtorEq, false_iff] at hc
          simp [hc]
        | none =>
          simp only [true_iff] at hc
          cases hclose : env.closeErr with
          | some e => simp [RotState.fatal]
          | none => simpa using hc

/-- The actions of a MySQL tick that completes are exactly: generate, change the password,
query the process list, scan and kill every listed id, close the rows, write the
Credential Record. -/
theorem mysqlTick_exact (user : String) (env : MySQLTick) (old : String)
    (h : (mysqlTick user env ⟨old, []⟩).1 = none) :
    ∃ (pw : String) (ids : List String), generatePassword env.rand = .ok pw ∧
      env.rows.map ProcessRow.scan = ids.map Except.ok ∧
      (mysqlTick user env ⟨old, []⟩).2.trace
        = ([RotEvent.generated pw, RotEvent.setPassword user pw, RotEvent.queryProcesses user]
            ++ killActions ids ++ [RotEvent.closeRows, RotEvent.credsWrite pw]).map
            (fun e => ⟨e, old⟩) ∧
      (mysqlTick user env ⟨old, []⟩).2.credsPassword = pw := by
  obtain ⟨⟨pw, hgen⟩, hset, hq, hrows, hclose⟩ := (mysqlTick_complete user env _).mp h
  have hknone := (killLoop_complete env.rows
    ((((RotState.mk old []).emit (.generated pw)).emit (.setPassword user pw)).emit
      (.queryProcesses user))).mpr hrows
  obtain ⟨ids, hids, _, htr⟩ := killLoop_exact _ _ hknone
  have hkl : killLoop env.rows
      ((((RotState.mk old []).emit (.generated pw)).emit (.setPassword user pw)).emit
        (.queryProcesses user))
      = (none, (killLoop env.rows
          ((((RotState.mk old []).emit (.generated pw)).emit (.setPassword user pw)).emit
            (.queryProcesses user))).2) := Prod.ext hknone rfl
  rw [htr] at hkl
  refine ⟨pw, ids, hgen, hids, ?_, ?_⟩
  · simp only [mysqlTick, hgen, hset, hq, hclose, hkl]
    simp [RotState.emit]
  · simp only [mysqlTick, hgen, hset, hq, hclose, hkl]

/-- A Postgres tick completes exactly when every statement of it succeeds. -/
theorem postgresTick_complete (user : String) (env : PostgresTick) (s : RotState) :
    (postgresTick user env s).1 = none ↔
      ((∃ pw, generatePassword env.rand = .ok pw) ∧ env.alterUserErr = none ∧
        env.terminateErr = none) := by
  unfold postgresTick
  cases hgen : generatePassword env.rand with
  | error a => cases a <;> simp [RotState.fatal]
  | ok pw =>
    cases hset : env.alterUserErr with
    | some e => simp [RotState.fatal]
    | none =>
      cases hq : env.terminateErr with
      | some e => simp [RotState.fatal]
      | none => simp

/-- The actions of a Postgres tick that completes are exactly: generate, change the
password, terminate the backends of the user, write the Credential Record. -/
theorem postgresTick_exact (user : String) (env : PostgresTick) (old : String)
    (h : (postgresTick user env ⟨old, []⟩).1 = none) :
    ∃ pw, generatePassword env.rand = .ok pw ∧
      (postgresTick user env ⟨old, []⟩).2.trace
        = [⟨.generated pw, old⟩, ⟨.setPassword user pw, old⟩,
           ⟨.terminateBackends user, old⟩, ⟨.credsWrite pw, old⟩] ∧
      (postgresTick user env ⟨old, []⟩).2.credsPassword = pw := by
  obtain ⟨⟨pw, hgen⟩, hset, hq⟩ := (postgresTick_complete user env _).mp h
  refine ⟨pw, hgen, ?_, ?_⟩ <;> simp [postgresTick, hgen, hset, hq, RotState.emit]

/-- Once the password change has succeeded, a MySQL tick goes on to query the process
list, whatever happens afterwards. -/
theorem mysqlTick_head (user : String) (env : MySQLTick) (old pw : String)
    (hgen : generatePassword env.rand = .ok pw) (hset : env.setPasswordErr = none) :
    (mysqlTick user env ⟨old, []⟩).2.trace.take 3
      = [⟨.generated pw, old⟩, ⟨.setPassword user pw, old⟩, ⟨.queryProcesses user, old⟩] := by
  unfold mysqlTick
  cases hq : env.queryErr with
  | some e => simp [hgen, hset, RotState.fatal, RotState.emit]
  | none =>
    obtain ⟨added, h1, _, _, _⟩ := killLoop_trace env.rows
      ((((RotState.mk old []).emit (.generated pw)).emit (.setPassword user pw)).emit
        (.queryProcesses user))
    rcases hk : killLoop env.rows
      ((((RotState.mk old []).emit (.generated pw)).emit (.setPassword user pw)).emit
        (.queryProcesses user)) with ⟨ab, s3⟩
    rw [hk] at h1
    simp only [RotState.emit, List.nil_append, List.cons_append] at h1
    subst h1
    simp only [hgen, hset, hk]
    cases ab with
    | some a => simp
    | none =>
      cases hclose : env.closeErr with
      | some e => simp [RotState.fatal, RotState.emit]
      | none => simp [RotState.emit]

/-- Once the password change has succeeded, a Postgres tick goes on to terminate the
backends of the user, whatever happens afterwards. -/
theorem postgresTick_head (user : String) (env : PostgresTick) (old pw : String)
    (hgen : generatePassword env.rand = .ok pw) (hset : env.alterUserErr = none) :
    (postgresTick user env ⟨old, []⟩).2.trace.take 3
      = [⟨.generated pw, old⟩, ⟨.setPassword user pw, old⟩,
         ⟨.terminateBackends user, old⟩] := by
  unfold postgresTick
  cases hq : env.terminateErr with
  | some e => simp [hgen, hset, RotState.fatal, RotState.emit]
  | none => simp [hgen, hset, RotState.emit]

/-- C9, as stated, fails: in the sample MySQL tick (one live session) and in the sample
Postgres tick the sessions are terminated before the Credential Record is written, while
`creds.password` still holds the old secret. -/
theorem rotator_order_counterexample :
    ¬ specRotatorOrder (mysqlTick "mysqluser1" sampleMySQLTick ⟨"old", []⟩).2.trace ∧
    ¬ specRotatorOrder (postgresTick "libpquser1" samplePostgresTick ⟨"old", []⟩).2.trace := by
  decide

/-- C9, amended: in every rotator tick of both tests, started with `creds.password = old`,
the actions occur in the order (1) generate the new secret, (2) change the password at the
database, (3) terminate the sessions, (4) write the Credential Record, and every action,
the terminations included, is issued while `creds.password` still holds `old`.  A tick
completes exactly when all its statements succeed, and then its actions are exactly these:
for MySQL generate, change the password, query the process list, scan and `KILL` every
listed id in order, close the rows, write the Credential Record; for Postgres generate,
change the password, `pg_terminate_backend` for the user, write the Credential Record;
after which `creds.password` is the generated secret.  A tick that gets past the password
change always goes on to the termination step. -/
theorem rotator_order (user old : String) (m : MySQLTick) (p : PostgresTick) :
    codeRotatorOrder user old (generatePassword m.rand) (mysqlTick user m ⟨old, []⟩) ∧
    codeRotatorOrder user old (generatePassword p.rand) (postgresTick user p ⟨old, []⟩) ∧
    ((mysqlTick user m ⟨old, []⟩).1 = none ↔
      ((∃ pw, generatePassword m.rand = .ok pw) ∧ m.setPasswordErr = none ∧
        m.queryErr = none ∧
        (∀ r ∈ m.rows, (∃ id, r.scan = .ok id) ∧ r.killErr = none) ∧
        m.closeErr = none)) ∧
    ((mysqlTick user m ⟨old, []⟩).1 = none →
      ∃ (pw : String) (ids : List String), generatePassword m.rand = .ok pw ∧
        m.rows.map ProcessRow.scan = ids.map Except.ok ∧
        (mysqlTick user m ⟨old, []⟩).2.trace
          = ([RotEvent.generated pw, RotEvent.setPassword user pw,
              RotEvent.queryProcesses user]
              ++ killActions ids ++ [RotEvent.closeRows, RotEvent.credsWrite pw]).map
              (fun e => ⟨e, old⟩) ∧
        (mysqlTick user m ⟨old, []⟩).2.credsPassword = pw) ∧
    (∀ pw, generatePassword m.rand = .ok pw → m.setPasswordErr = none →
      (mysqlTick user m ⟨old, []⟩).2.trace.take 3
        = [⟨.generated pw, old⟩, ⟨.setPassword user pw, old⟩,
           ⟨.queryProcesses user, old⟩]) ∧
    ((postgresTick user p ⟨old, []⟩).1 = none ↔
      ((∃ pw, generatePassword p.rand = .ok pw) ∧ p.alterUserErr = none ∧
        p.terminateErr = none)) ∧
    ((postgresTick user p ⟨old, []⟩).1 = none →
      ∃ pw, generatePassword p.rand = .ok pw ∧
        (postgresTick user p ⟨old, []⟩).2.trace
          = [⟨.generated pw, old⟩, ⟨.setPassword user pw, old⟩,
             ⟨.terminateBackends user, old⟩, ⟨.credsWrite pw, old⟩] ∧
        (postgresTick user p ⟨old, []⟩).2.credsPassword = pw) ∧
    (∀ pw, generatePassword p.rand = .ok pw → p.alterUserErr = none →
      (postgresTick user p ⟨old, []⟩).2.trace.take 3
        = [⟨.generated pw, old⟩, ⟨.setPassword user pw, old⟩,
           ⟨.terminateBackends user, old⟩]) :=
  ⟨codeRotatorOrder_of_shape _ _ _ _ (mysqlTick_shape user m old).1
      (mysqlTick_shape user m old).2.1 (mysqlTick_shape user m old).2.2,
   codeRotatorOrder_of_shape _ _ _ _ (postgresTick_shape user p old).1
      (postgresTick_shape user p old).2.1 (postgresTick_shape user p old).2.2,
   mysqlTick_complete user m _,
   mysqlTick_exact user m old,
   fun pw hgen hset => mysqlTick_head user m old pw hgen hset,
   postgresTick_complete user p _,
   postgresTick_exact user p old,
   fun pw hgen hset => postgresTick_head user p old pw hgen hset⟩

/-- Witness of amended C9 on the sample ticks: both complete, the MySQL tick kills the one
listed session 42 and the Postgres tick terminates the backends, each before the write of
the Credential Record. -/
theorem rotator_order_witness :
    (mysqlTick "mysqluser1" sampleMySQLTick ⟨"old", []⟩).1 = none ∧
    (postgresTick "mysqluser1" samplePostgresTick ⟨"old", []⟩).1 = none ∧
    (mysqlTick "mysqluser1" sampleMySQLTick ⟨"old", []⟩).2.trace.map Stamped.ev
      = [.generated "0bCnOza3eFqR2d6hItU5g9kLwX8jCn",
         .setPassword "mysqluser1" "0bCnOza3eFqR2d6hItU5g9kLwX8jCn",
         .queryProcesses "mysqluser1", .scan, .kill "42", .closeRows,
         .credsWrite "0bCnOza3eFqR2d6hItU5g9kLwX8jCn"] ∧
    (postgresTick "mysqluser1" samplePostgresTick ⟨"old", []⟩).2.trace.map Stamped.ev
      = [.generated "0bCnOza3eFqR2d6hItU5g9kLwX8jCn",
         .setPassword "mysqluser1" "0bCnOza3eFqR2d6hItU5g9kLwX8jCn",
         .terminateBackends "mysqluser1",
         .credsWrite "0bCnOza3eFqR2d6hItU5g9kLwX8jCn"] ∧
    (codeRotatorOrder "mysqluser1" "old" (generatePassword sampleMySQLTick.rand)
        (mysqlTick "mysqluser1" sampleMySQLTick ⟨"old", []⟩) ∧
      codeRotatorOrder "mysqluser1" "old" (generatePassword samplePostgresTick.rand)
        (postgresTick "mysqluser1" samplePostgresTick ⟨"old", []⟩)) ∧
    (∃ (pw : String) (ids : List String), generatePassword sampleMySQLTick.rand = .ok pw ∧
      sampleMySQLTick.rows.map ProcessRow.scan = ids.map Except.ok ∧
      (mysqlTick "mysqluser1" sampleMySQLTick ⟨"old", []⟩).2.trace
        = ([RotEvent.generated pw, RotEvent.setPassword "mysqluser1" pw,
            RotEvent.queryProcesses "mysqluser1"]
            ++ killActions ids ++ [RotEvent.closeRows, RotEvent.credsWrite pw]).map
            (fun e => ⟨e, "old"⟩) ∧
      (mysqlTick "mysqluser1" sampleMySQLTick ⟨"old", []⟩).2.credsPassword = pw) ∧
    (∃ pw, generatePassword samplePostgresTick.rand = .ok pw ∧
      (postgresTick "mysqluser1" samplePostgresTick ⟨"old", []⟩).2.trace
        = [⟨.generated pw, "old"⟩, ⟨.setPassword "mysqluser1" pw, "old"⟩,
           ⟨.terminateBackends "mysqluser1", "old"⟩, ⟨.credsWrite pw, "old"⟩] ∧
      (postgresTick "mysqluser1" samplePostgresTick ⟨"old", []⟩).2.credsPassword = pw) ∧
    (mysqlTick "mysqluser1" sampleMySQLTick ⟨"old", []⟩).2.trace.take 3
      = [⟨.generated "0bCnOza3eFqR2d6hItU5g9kLwX8jCn", "old"⟩,
         ⟨.setPassword "mysqluser1" "0bCnOza3eFqR2d6hItU5g9kLwX8jCn", "old"⟩,
         ⟨.queryProcesses "mysqluser1", "old"⟩] ∧
    (postgresTick "mysqluser1" samplePostgresTick ⟨"old", []⟩).2.trace.take 3
      = [⟨.generated "0bCnOza3eFqR2d6hItU5g9kLwX8jCn", "old"⟩,
         ⟨.setPassword "mysqluser1" "0bCnOza3eFqR2d6hItU5g9kLwX8jCn", "old"⟩,
         ⟨.terminateBackends "mysqluser1", "old"⟩] :=
  ⟨by decide, by decide, by decide, by decide,
   ⟨(rotator_order "mysqluser1" "old" sampleMySQLTick samplePostgresTick).1,
    (rotator_order "mysqluser1" "old" sampleMySQLTick samplePostgresTick).2.1⟩,
   (rotator_order "mysqluser1" "old" sampleMySQLTick samplePostgresTick).2.2.2.1 (by decide),
   (rotator_order "mysqluser1" "old" sampleMySQLTick samplePostgresTick).2.2.2.2.2.2.1
     (by decide),
   (rotator_order "mysqluser1" "old" sampleMySQLTick samplePostgresTick).2.2.2.2.1
     _ (by decide) rfl,
   (rotator_order "mysqluser1" "old" sampleMySQLTick samplePostgresTick).2.2.2.2.2.2.2
     _ (by decide) rfl⟩

end DynamicDatabaseConfig
